import Mathlib

/-!
Verification of the Supernote `.note` decoder (package `internal/note`, file
`parse.go`) against its natural-language specification.

The development shallow-embeds the pure core of the decoder:

* the palette lookup `grayLUT` and the run writer `writeRun`;
* the authoritative RATTA_RLE reference decoder `decodeRattaRLERef`
  (holder chaining, sentinel long runs, tail adjustment, clamping);
* the layer loader dispatch of `decodeLayerFromPage` (PNG-magic detection,
  neutral background synthesis, RLE dispatch with the all-blank hint);
* the background-only decoder core of `DecodeBackground`;
* the PNG-branch orientation/rotation step;
* the compositor `Composite` over grayscale+alpha rasters.

Bytes are modelled as `Nat` (every source value is a `byte`, so all
arithmetic stays below 2^8 for byte values; run lengths are `int` in Go and
never overflow for the payload sizes involved, so plain `Nat` arithmetic is
exact).  Go slices become `List Nat`; a nil slice or nil pointer becomes
`Option`.  I/O (seeking and reading metadata blocks) is abstracted: the
embedded functions receive the page parameter map, the layer metadata map
and the bitmap payload that the Go code reads from the file.  Environment
variables read by the Go code (`RLE_FIX_BG`, `SUPERNOTE_PNG_ROTATE`) become
explicit parameters; the program never sets them, and `os.Getenv` yields
the empty string for unset variables, so the default instantiations are
`false` and `""`.
-/

deriving instance DecidableEq for Except

/-! ### Constants (parse.go, `const` block and page dimensions) -/

def colBlack : Nat := 0x61
def colBG : Nat := 0x62
def colDark : Nat := 0x63
def colGray : Nat := 0x64
def colWhite : Nat := 0x65
def colMBlack : Nat := 0x66
def colMDark : Nat := 0x67
def colMGray : Nat := 0x68
def lenMark : Nat := 0xFF
def longLen : Nat := 0x4000
def specialWhiteStyleBlockSize : Nat := 0x140E
def pageWidth : Nat := 1404
def pageHeight : Nat := 1872

/-! ### grayLUT and writeRun (parse.go lines 992-1000 and 1252-1285) -/

/-- The `grayLUT` map from parse.go: protocol color codes to grayscale.
Besides the eight palette codes it contains the "X2 variant codes"
0x9D, 0xC9, 0x9E, 0xCA. -/
def grayLUT (code : Nat) : Option Nat :=
  if code = colBlack then some 0x00
  else if code = colMBlack then some 0x00
  else if code = colDark then some 0x9d
  else if code = colMDark then some 0x9d
  else if code = colGray then some 0xc9
  else if code = colMGray then some 0xc9
  else if code = colWhite then some 0xfe
  else if code = colBG then some 0xff
  else if code = 0x9d then some 0x9d
  else if code = 0xc9 then some 0xc9
  else if code = 0x9e then some 0x9d
  else if code = 0xca then some 0xc9
  else none

/-- The gray value `writeRun` writes for a color code: the `grayLUT` entry,
or for codes not in the map the fallback of parse.go lines 1256-1263
(the `code == colBG` arm of that fallback is dead since `colBG` is in the
map, but it is kept for fidelity). -/
def runGray (code : Nat) : Nat :=
  match grayLUT code with
  | some g => g
  | none => if code = colBG then 0xff else 0xc9

/-- One iteration structure of the `writeRun` chunk loop (parse.go lines
1264-1284), with the remaining `length` as fuel.  Each Go iteration writes
`chunk = min length spaceInRow remain >= 1` bytes, so fuel `length`
suffices.  The `chunk = 0` guard is unreachable for `w >= 1`; in Go, a call
with `w = 0` and `expected > 0` would panic on the modulo, but the decoder
only calls `writeRun` with `expected = w * h`, which forces `expected = 0`
when `w = 0` and makes the loop exit immediately. -/
def writeRunAux (expected w g : Nat) : Nat → List Nat → Nat → List Nat
  | 0, out, _ => out
  | fuel + 1, out, length =>
    if length = 0 then out
    else if expected ≤ out.length then out
    else
      let remain := expected - out.length
      let spaceInRow := w - out.length % w
      let chunk := min (min length spaceInRow) remain
      if chunk = 0 then out
      else writeRunAux expected w g fuel (out ++ List.replicate chunk g) (length - chunk)

/-- Function `writeRun` from parse.go lines 1252-1285: append a run of `length`
pixels of the gray value of `code`, clamped to `expected` total pixels,
written in chunks that do not cross a row boundary of width `w`. -/
def writeRun (out : List Nat) (expected w code length : Nat) : List Nat :=
  writeRunAux expected w (runGray code) length out length

theorem writeRunAux_eq (expected w g : Nat) (hw : 0 < w) :
    ∀ fuel length out, length ≤ fuel →
      writeRunAux expected w g fuel out length
        = out ++ List.replicate (min length (expected - out.length)) g := by
  intro fuel
  induction fuel with
  | zero =>
    intro length out hle
    interval_cases length
    simp [writeRunAux]
  | succ n ih =>
    intro length out hle
    rw [writeRunAux]
    by_cases h0 : length = 0
    · simp [h0]
    · simp only [h0, if_false]
      by_cases hfull : expected ≤ out.length
      · have : expected - out.length = 0 := Nat.sub_eq_zero_of_le hfull
        simp [hfull, this]
      · simp only [hfull, if_false]
        have hlt : out.length < expected := Nat.lt_of_not_le hfull
        have hrow : 0 < w - out.length % w :=
          Nat.sub_pos_of_lt (Nat.mod_lt _ hw)
        have hchunk : 0 < min (min length (w - out.length % w)) (expected - out.length) := by
          have h1 : 0 < length := Nat.pos_of_ne_zero h0
          have h2 : 0 < expected - out.length := Nat.sub_pos_of_lt hlt
          omega
        simp only [Nat.ne_of_gt hchunk, if_false]
        rw [ih _ _ (by omega)]
        rw [List.append_assoc, ← List.replicate_add]
        congr 2
        simp only [List.length_append, List.length_replicate]
        omega

theorem writeRun_eq (out : List Nat) (expected w code length : Nat) (hw : 0 < w) :
    writeRun out expected w code length
      = out ++ List.replicate (min length (expected - out.length)) (runGray code) :=
  writeRunAux_eq expected w (runGray code) hw length length out (Nat.le_refl _)

/-! ### The RATTA_RLE reference decoder (parse.go lines 840-946) -/

/-- Decoder state: the produced pixel buffer and the pending holder pair
`(holdColor, holdLen)` when `haveHolder` is set. -/
structure RLEState where
  out : List Nat
  holder : Option (Nat × Nat)
deriving DecidableEq

/-- The body of the main loop of `decodeRattaRLERef` (parse.go lines
864-926) for one `(color, lengthByte)` pair.  `rleFixBG` is the value of
the `RLE_FIX_BG` environment check, `false` in a default environment. -/
def rleStep (expected w : Nat) (allBlank rleFixBG : Bool) (st : RLEState)
    (color lb : Nat) : RLEState :=
  let resolved : RLEState × Bool :=
    match st.holder with
    | some (pc, pl) =>
      if color = pc then
        let mergedLen := 1 + lb + (((pl &&& 0x7f) + 1) <<< 7)
        let mergedLen := min mergedLen (expected - st.out.length)
        (⟨writeRun st.out expected w pc mergedLen, none⟩, true)
      else
        let flushLen := 1 + (((pl &&& 0x7f) + 1) <<< 7)
        let flushLen := min flushLen (expected - st.out.length)
        (⟨writeRun st.out expected w pc flushLen, none⟩, false)
    | none => (⟨st.out, none⟩, false)
  let st1 := resolved.1
  if resolved.2 then st1
  else if lb = lenMark then
    let special := if rleFixBG ∧ color = colBG then w else longLen
    let special := if allBlank then 0x400 else special
    let special := min special (expected - st1.out.length)
    ⟨writeRun st1.out expected w color special, none⟩
  else if lb &&& 0x80 ≠ 0 then
    ⟨st1.out, some (color, lb)⟩
  else
    let runLen := lb + 1
    let runLen := min runLen (expected - st1.out.length)
    ⟨writeRun st1.out expected w color runLen, none⟩

/-- The main loop of `decodeRattaRLERef`: pairs are consumed left to right
while the output is short of `expected`; a trailing lone byte is dropped. -/
def rleLoop (expected w : Nat) (allBlank rleFixBG : Bool) :
    List Nat → RLEState → RLEState
  | color :: lb :: rest, st =>
    if expected ≤ st.out.length then st
    else rleLoop expected w allBlank rleFixBG rest
      (rleStep expected w allBlank rleFixBG st color lb)
  | _, st => st

/-- The tail-adjustment length (parse.go lines 930-937): the largest
`((pl &&& 0x7f) + 1) <<< bit` for `bit` from 7 down to 0 that fits in
`gap`, or 0 when none fits.  The Go `for bit := 7; bit >= 0; bit--` loop
with its early `break` is unrolled. -/
def adjustedTail (pl gap : Nat) : Nat :=
  if ((pl &&& 0x7f) + 1) <<< 7 ≤ gap then ((pl &&& 0x7f) + 1) <<< 7
  else if ((pl &&& 0x7f) + 1) <<< 6 ≤ gap then ((pl &&& 0x7f) + 1) <<< 6
  else if ((pl &&& 0x7f) + 1) <<< 5 ≤ gap then ((pl &&& 0x7f) + 1) <<< 5
  else if ((pl &&& 0x7f) + 1) <<< 4 ≤ gap then ((pl &&& 0x7f) + 1) <<< 4
  else if ((pl &&& 0x7f) + 1) <<< 3 ≤ gap then ((pl &&& 0x7f) + 1) <<< 3
  else if ((pl &&& 0x7f) + 1) <<< 2 ≤ gap then ((pl &&& 0x7f) + 1) <<< 2
  else if ((pl &&& 0x7f) + 1) <<< 1 ≤ gap then ((pl &&& 0x7f) + 1) <<< 1
  else if ((pl &&& 0x7f) + 1) <<< 0 ≤ gap then ((pl &&& 0x7f) + 1) <<< 0
  else 0

/-- Tail adjustment (parse.go lines 927-941): if a holder is pending and
the output is short, emit `adjustedTail` pixels of the holder color (only
when that length is positive). -/
def rleTail (expected w : Nat) (st : RLEState) : List Nat :=
  match st.holder with
  | some (pc, pl) =>
    if st.out.length < expected then
      let adjusted := adjustedTail pl (expected - st.out.length)
      if 0 < adjusted then writeRun st.out expected w pc adjusted else st.out
    else st.out
  | none => st.out

/-- The full pixel production of `decodeRattaRLERef` before the final size
check: main loop from the empty state, then tail adjustment. -/
def rleDecodeCore (expected w : Nat) (allBlank rleFixBG : Bool)
    (data : List Nat) : List Nat :=
  rleTail expected w (rleLoop expected w allBlank rleFixBG data ⟨[], none⟩)

/-- Function `decodeRattaRLERef` (parse.go lines 840-946) with the `RLE_FIX_BG`
environment check as an explicit parameter.  On success it returns the
pixel buffer and the (orientation-swapped) dimensions; on failure it
returns the `(produced, expected)` counts carried by the
"ratta_ref decoded %d != %d" error, and no pixel buffer (Go returns
`nil, 0, 0, err`). -/
def decodeRattaRLERefEnv (rleFixBG : Bool) (data : List Nat) (w h : Nat)
    (allBlank horiz : Bool) : Except (Nat × Nat) (List Nat × Nat × Nat) :=
  let w2 := if horiz then h else w
  let h2 := if horiz then w else h
  let expected := w2 * h2
  let out := rleDecodeCore expected w2 allBlank rleFixBG data
  if out.length = expected then .ok (out, w2, h2)
  else .error (out.length, expected)

/-- Function `decodeRattaRLERef` in a default environment (`RLE_FIX_BG` unset). -/
def decodeRattaRLERef (data : List Nat) (w h : Nat) (allBlank horiz : Bool) :
    Except (Nat × Nat) (List Nat × Nat × Nat) :=
  decodeRattaRLERefEnv false data w h allBlank horiz

/-! ### Holder resolution (Claim C1) -/

theorem rleStep_merge (expected w : Nat) (allBlank rleFixBG : Bool)
    (out : List Nat) (c1 l1 l2 : Nat) (hw : 0 < w) :
    rleStep expected w allBlank rleFixBG ⟨out, some (c1, l1)⟩ c1 l2
      = ⟨out ++ List.replicate
            (min (1 + l2 + (((l1 &&& 0x7f) + 1) <<< 7)) (expected - out.length))
            (runGray c1), none⟩ := by
  simp only [rleStep, if_pos rfl]
  rw [writeRun_eq _ _ _ _ _ hw]
  simp [Nat.min_assoc]

theorem rleStep_flush (expected w : Nat) (allBlank rleFixBG : Bool)
    (out : List Nat) (c1 l1 c2 l2 : Nat) (hw : 0 < w) (hc : c2 ≠ c1) :
    rleStep expected w allBlank rleFixBG ⟨out, some (c1, l1)⟩ c2 l2
      = rleStep expected w allBlank rleFixBG
          ⟨out ++ List.replicate
              (min (1 + (((l1 &&& 0x7f) + 1) <<< 7)) (expected - out.length))
              (runGray c1), none⟩ c2 l2 := by
  conv_lhs => rw [rleStep]
  conv_rhs => rw [rleStep]
  simp only [if_neg hc]
  rw [writeRun_eq _ _ _ _ _ hw]
  simp [Nat.min_assoc]

/-- Claim C1: RLE holder resolution.  When a pair `(c2, l2)` arrives while
a holder `(c1, l1)` is pending, the decoder emits a single run of color
`c1` of length `1 + l2 + (((l1 &&& 0x7F) + 1) <<< 7)` (clamped to the
remaining gap, as every emission is) if `c2 = c1`, consuming the pair; if
`c2 ≠ c1` it emits a run of color `c1` of length
`1 + (((l1 &&& 0x7F) + 1) <<< 7)` (clamped) and then processes `(c2, l2)`
from scratch with no holder pending (so it may itself become a holder, a
normal run or a sentinel).  The example payload
`[0x61, 0x80, 0x61, 0x00]` emits a single run of color 0x61 (gray 0x00) of
length 129. -/
theorem rle_holder_resolution (expected w : Nat) (allBlank rleFixBG : Bool)
    (out : List Nat) (c1 l1 c2 l2 : Nat) (hw : 0 < w) :
    (rleStep expected w allBlank rleFixBG ⟨out, some (c1, l1)⟩ c1 l2
      = ⟨out ++ List.replicate
            (min (1 + l2 + (((l1 &&& 0x7f) + 1) <<< 7)) (expected - out.length))
            (runGray c1), none⟩)
    ∧ (c2 ≠ c1 →
        rleStep expected w allBlank rleFixBG ⟨out, some (c1, l1)⟩ c2 l2
          = rleStep expected w allBlank rleFixBG
              ⟨out ++ List.replicate
                  (min (1 + (((l1 &&& 0x7f) + 1) <<< 7)) (expected - out.length))
                  (runGray c1), none⟩ c2 l2)
    ∧ (rleLoop 130 13 false false [0x61, 0x80, 0x61, 0x00] ⟨[], none⟩).out
        = List.replicate 129 0x00 :=
  ⟨rleStep_merge expected w allBlank rleFixBG out c1 l1 l2 hw,
   fun hc => rleStep_flush expected w allBlank rleFixBG out c1 l1 c2 l2 hw hc,
   by decide⟩

theorem rle_holder_resolution_witness :
    0 < 13 ∧
    ((rleStep 130 13 false false ⟨[], some (0x61, 0x80)⟩ 0x61 0
      = ⟨[] ++ List.replicate
            (min (1 + 0 + (((0x80 &&& 0x7f) + 1) <<< 7)) (130 - List.length ([] : List Nat)))
            (runGray 0x61), none⟩)
    ∧ ((0x62 : Nat) ≠ 0x61 →
        rleStep 130 13 false false ⟨[], some (0x61, 0x80)⟩ 0x62 0
          = rleStep 130 13 false false
              ⟨[] ++ List.replicate
                  (min (1 + (((0x80 &&& 0x7f) + 1) <<< 7)) (130 - List.length ([] : List Nat)))
                  (runGray 0x61), none⟩ 0x62 0)
    ∧ (rleLoop 130 13 false false [0x61, 0x80, 0x61, 0x00] ⟨[], none⟩).out
        = List.replicate 129 0x00) :=
  ⟨by decide, rle_holder_resolution 130 13 false false [] 0x61 0x80 0x62 0 (by decide)⟩

/-! ### Tail adjustment (Claim C2) -/

theorem adjustedTail_le (pl gap : Nat) : adjustedTail pl gap ≤ gap := by
  unfold adjustedTail
  split_ifs <;> first | assumption | omega

theorem adjustedTail_ge (pl gap : Nat) :
    ∀ k, k ≤ 7 → ((pl &&& 0x7f) + 1) <<< k ≤ gap →
      ((pl &&& 0x7f) + 1) <<< k ≤ adjustedTail pl gap := by
  intro k hk hle
  unfold adjustedTail
  simp only [Nat.shiftLeft_eq] at *
  split_ifs with h7 h6 h5 h4 h3 h2 h1 h0 <;>
    interval_cases k <;> simp_all <;> nlinarith [Nat.le_refl pl]

theorem adjustedTail_mem (pl gap : Nat)
    (h : ∃ k, k ≤ 7 ∧ ((pl &&& 0x7f) + 1) <<< k ≤ gap) :
    ∃ k, k ≤ 7 ∧ adjustedTail pl gap = ((pl &&& 0x7f) + 1) <<< k
      ∧ ((pl &&& 0x7f) + 1) <<< k ≤ gap := by
  unfold adjustedTail
  split_ifs with h7 h6 h5 h4 h3 h2 h1 h0
  · exact ⟨7, by omega, rfl, h7⟩
  · exact ⟨6, by omega, rfl, h6⟩
  · exact ⟨5, by omega, rfl, h5⟩
  · exact ⟨4, by omega, rfl, h4⟩
  · exact ⟨3, by omega, rfl, h3⟩
  · exact ⟨2, by omega, rfl, h2⟩
  · exact ⟨1, by omega, rfl, h1⟩
  · exact ⟨0, by omega, rfl, h0⟩
  · obtain ⟨k, hk, hle⟩ := h
    interval_cases k <;> simp_all <;> omega

theorem adjustedTail_none (pl gap : Nat)
    (h : ∀ k, k ≤ 7 → ¬ ((pl &&& 0x7f) + 1) <<< k ≤ gap) :
    adjustedTail pl gap = 0 := by
  unfold adjustedTail
  split_ifs with h7 h6 h5 h4 h3 h2 h1 h0
  · exact absurd h7 (h 7 (by omega))
  · exact absurd h6 (h 6 (by omega))
  · exact absurd h5 (h 5 (by omega))
  · exact absurd h4 (h 4 (by omega))
  · exact absurd h3 (h 3 (by omega))
  · exact absurd h2 (h 2 (by omega))
  · exact absurd h1 (h 1 (by omega))
  · exact absurd h0 (h 0 (by omega))
  · rfl

theorem rleTail_holder (expected w : Nat) (out : List Nat) (c1 l1 : Nat)
    (hw : 0 < w) (hshort : out.length < expected) :
    rleTail expected w ⟨out, some (c1, l1)⟩
      = out ++ List.replicate (adjustedTail l1 (expected - out.length)) (runGray c1) := by
  simp only [rleTail, if_pos hshort]
  by_cases hpos : 0 < adjustedTail l1 (expected - out.length)
  · simp only [hpos, if_pos]
    rw [writeRun_eq _ _ _ _ _ hw]
    congr 2
    exact Nat.min_eq_left (adjustedTail_le _ _)
  · simp only [hpos, if_neg]
    have : adjustedTail l1 (expected - out.length) = 0 := by omega
    simp [this]

/-- Claim C2: RLE tail adjustment.  When the main loop finishes with a
holder `(c1, l1)` still pending and the output short of `expected = W*H`,
the decoder appends `((l1 &&& 0x7F) + 1) <<< k` pixels of the color `c1`,
where `k` is the largest value in {7,...,0} whose run fits in the gap
`expected - produced` (the appended run is at least every fitting shifted
value, and is itself one of them), and appends nothing when no shift in
{7,...,0} fits. -/
theorem rle_tail_adjustment (expected w : Nat) (allBlank rleFixBG : Bool)
    (data out : List Nat) (c1 l1 : Nat) (hw : 0 < w)
    (hloop : rleLoop expected w allBlank rleFixBG data ⟨[], none⟩ = ⟨out, some (c1, l1)⟩)
    (hshort : out.length < expected) :
    rleDecodeCore expected w allBlank rleFixBG data
      = out ++ List.replicate (adjustedTail l1 (expected - out.length)) (runGray c1)
    ∧ (∀ k, k ≤ 7 → ((l1 &&& 0x7f) + 1) <<< k ≤ expected - out.length →
        ((l1 &&& 0x7f) + 1) <<< k ≤ adjustedTail l1 (expected - out.length))
    ∧ ((∃ k, k ≤ 7 ∧ ((l1 &&& 0x7f) + 1) <<< k ≤ expected - out.length) →
        ∃ k, k ≤ 7 ∧ adjustedTail l1 (expected - out.length) = ((l1 &&& 0x7f) + 1) <<< k
          ∧ ((l1 &&& 0x7f) + 1) <<< k ≤ expected - out.length)
    ∧ ((∀ k, k ≤ 7 → ¬ ((l1 &&& 0x7f) + 1) <<< k ≤ expected - out.length) →
        rleDecodeCore expected w allBlank rleFixBG data = out) := by
  have hcore : rleDecodeCore expected w allBlank rleFixBG data
      = out ++ List.replicate (adjustedTail l1 (expected - out.length)) (runGray c1) := by
    unfold rleDecodeCore
    rw [hloop]
    exact rleTail_holder expected w out c1 l1 hw hshort
  refine ⟨hcore, adjustedTail_ge l1 _, adjustedTail_mem l1 _, fun hnone => ?_⟩
  rw [hcore, adjustedTail_none l1 _ hnone]
  simp

theorem rle_tail_adjustment_witness :
    0 < 8
    ∧ rleLoop 64 8 false false [0x61, 0x83] ⟨[], none⟩ = ⟨[], some (0x61, 0x83)⟩
    ∧ List.length ([] : List Nat) < 64
    ∧ (rleDecodeCore 64 8 false false [0x61, 0x83]
        = [] ++ List.replicate (adjustedTail 0x83 (64 - List.length ([] : List Nat))) (runGray 0x61)
      ∧ (∀ k, k ≤ 7 → ((0x83 &&& 0x7f) + 1) <<< k ≤ 64 - List.length ([] : List Nat) →
          ((0x83 &&& 0x7f) + 1) <<< k ≤ adjustedTail 0x83 (64 - List.length ([] : List Nat)))
      ∧ ((∃ k, k ≤ 7 ∧ ((0x83 &&& 0x7f) + 1) <<< k ≤ 64 - List.length ([] : List Nat)) →
          ∃ k, k ≤ 7 ∧ adjustedTail 0x83 (64 - List.length ([] : List Nat)) = ((0x83 &&& 0x7f) + 1) <<< k
            ∧ ((0x83 &&& 0x7f) + 1) <<< k ≤ 64 - List.length ([] : List Nat))
      ∧ ((∀ k, k ≤ 7 → ¬ ((0x83 &&& 0x7f) + 1) <<< k ≤ 64 - List.length ([] : List Nat)) →
          rleDecodeCore 64 8 false false [0x61, 0x83] = [])) :=
  ⟨by decide, by decide, by decide,
   rle_tail_adjustment 64 8 false false [0x61, 0x83] [] 0x61 0x83
     (by decide) (by decide) (by decide)⟩

/-! ### Completion and clamping (Claim C4) -/

theorem writeRun_length (out : List Nat) (expected w code length : Nat) (hw : 0 < w) :
    (writeRun out expected w code length).length
      = out.length + min length (expected - out.length) := by
  rw [writeRun_eq _ _ _ _ _ hw]
  simp

theorem rleStep_out_le (expected w : Nat) (ab fx : Bool) (st : RLEState)
    (color lb : Nat) (hw : 0 < w) (h : st.out.length ≤ expected) :
    (rleStep expected w ab fx st color lb).out.length ≤ expected := by
  obtain ⟨out, _ | ⟨pc, pl⟩⟩ := st
  all_goals
    simp only [rleStep] at *
    split_ifs <;> simp_all [writeRun_length _ _ _ _ _ hw] <;> omega

theorem rleLoop_out_le (expected w : Nat) (ab fx : Bool) (hw : 0 < w) :
    ∀ (data : List Nat) (st : RLEState), st.out.length ≤ expected →
      (rleLoop expected w ab fx data st).out.length ≤ expected
  | [], _, h => h
  | [_], _, h => h
  | color :: lb :: rest, st, h => by
    rw [rleLoop]
    split
    · exact h
    · exact rleLoop_out_le expected w ab fx hw rest _
        (rleStep_out_le expected w ab fx st color lb hw h)

theorem rleLoop_stop (expected w : Nat) (ab fx : Bool) (data : List Nat)
    (st : RLEState) (h : expected ≤ st.out.length) :
    rleLoop expected w ab fx data st = st := by
  match data with
  | [] => rfl
  | [_] => rfl
  | color :: lb :: rest => rw [rleLoop]; simp [h]

theorem rleTail_out_le (expected w : Nat) (st : RLEState) (hw : 0 < w)
    (h : st.out.length ≤ expected) :
    (rleTail expected w st).length ≤ expected := by
  obtain ⟨out, _ | ⟨pc, pl⟩⟩ := st
  · exact h
  · simp only [rleTail]
    split_ifs <;> simp_all [writeRun_length _ _ _ _ _ hw] <;> omega

theorem rleDecodeCore_le (expected w : Nat) (ab fx : Bool) (data : List Nat)
    (hw : 0 < w) :
    (rleDecodeCore expected w ab fx data).length ≤ expected :=
  rleTail_out_le expected w _ hw
    (rleLoop_out_le expected w ab fx hw data ⟨[], none⟩ (Nat.zero_le _))

/-- Claim C4: RLE completion.  For every payload and dimensions, the
decoder either returns a pixel buffer of exactly `w2 * h2` bytes (the
orientation-swapped dimensions it reports) or fails carrying the
`(produced, expected)` counts with no pixel buffer; the produced count
never exceeds the expected count because every emission is clamped. -/
theorem rle_completion (rleFixBG : Bool) (data : List Nat) (w h : Nat)
    (allBlank horiz : Bool) :
    match decodeRattaRLERefEnv rleFixBG data w h allBlank horiz with
    | .ok (out, w2, h2) => out.length = w2 * h2
    | .error (produced, expected) =>
        produced < expected
        ∧ expected = (if horiz then h else w) * (if horiz then w else h) := by
  have aux : ∀ w2 h2 : Nat,
      match (if (rleDecodeCore (w2 * h2) w2 allBlank rleFixBG data).length = w2 * h2
             then (Except.ok (rleDecodeCore (w2 * h2) w2 allBlank rleFixBG data, w2, h2) :
                Except (Nat × Nat) (List Nat × Nat × Nat))
             else .error ((rleDecodeCore (w2 * h2) w2 allBlank rleFixBG data).length, w2 * h2)) with
      | .ok (out, a, b) => out.length = a * b
      | .error (p, e) => p < e ∧ e = w2 * h2 := by
    intro w2 h2
    by_cases hw2 : 0 < w2
    · have hlen := rleDecodeCore_le (w2 * h2) w2 allBlank rleFixBG data hw2
      split_ifs with heq
      · exact heq
      · exact ⟨Nat.lt_of_le_of_ne hlen heq, rfl⟩
    · have hw0 : w2 = 0 := by omega
      subst hw0
      have hcore : rleDecodeCore (0 * h2) 0 allBlank rleFixBG data = [] := by
        unfold rleDecodeCore
        rw [Nat.zero_mul]
        rw [rleLoop_stop 0 0 allBlank rleFixBG data ⟨[], none⟩ (by simp)]
        rfl
      rw [Nat.zero_mul] at hcore
      simp [hcore]
  exact aux (if horiz then h else w) (if horiz then w else h)

/-! ### Rasters and the compositor (parse.go lines 128-146 and 1375-1380) -/

/-- The `GrayImage` raster: pixel plane, optional alpha plane (a nil Go
slice becomes `none`), and dimensions. -/
structure GrayImage where
  pix : List Nat
  alpha : Option (List Nat)
  W : Nat
  H : Nat
deriving DecidableEq

/-- The loop of `Composite` (parse.go lines 136-142): walk the three
planes in lockstep up to the shortest; where the alpha byte is 0, pull the
background pixel and set alpha 255; leave the rest (including any suffix
beyond the shortest plane) unchanged.  Returns the updated
(pixel, alpha) planes of the main raster. -/
def compositeLoop : List Nat → List Nat → List Nat → List Nat × List Nat
  | m :: ms, a :: al, b :: bl =>
    let r := compositeLoop ms al bl
    if a = 0 then (b :: r.1, 255 :: r.2) else (m :: r.1, a :: r.2)
  | ms, al, _ => (ms, al)

/-- Function `Composite` (parse.go lines 128-146).  Nil main, nil background or a
main raster without an alpha plane is a no-op (the Go early return); the
Go function mutates `main` in place, modelled here by returning the
updated main raster.  The background raster is never written. -/
def Composite (main bg : Option GrayImage) : Option GrayImage :=
  match main, bg with
  | some m, some b =>
    match m.alpha with
    | some a =>
      let r := compositeLoop m.pix a b.pix
      some { m with pix := r.1, alpha := some r.2 }
    | none => main
  | _, _ => main

theorem compositeLoop_fst_length (ms al bl : List Nat) :
    (compositeLoop ms al bl).1.length = ms.length := by
  induction ms generalizing al bl with
  | nil => cases al <;> cases bl <;> simp [compositeLoop]
  | cons m ms ih =>
    cases al with
    | nil => simp [compositeLoop]
    | cons a al =>
      cases bl with
      | nil => simp [compositeLoop]
      | cons b bl => by_cases ha : a = 0 <;> simp [compositeLoop, ha, ih]

theorem compositeLoop_snd_length (ms al bl : List Nat) :
    (compositeLoop ms al bl).2.length = al.length := by
  induction ms generalizing al bl with
  | nil => cases al <;> cases bl <;> simp [compositeLoop]
  | cons m ms ih =>
    cases al with
    | nil => simp [compositeLoop]
    | cons a al =>
      cases bl with
      | nil => simp [compositeLoop]
      | cons b bl => by_cases ha : a = 0 <;> simp [compositeLoop, ha, ih]

theorem compositeLoop_fst_get (ms al bl : List Nat) (i : Nat) :
    (compositeLoop ms al bl).1[i]?
      = if i < ms.length ∧ i < al.length ∧ i < bl.length ∧ al[i]? = some 0
        then bl[i]? else ms[i]? := by
  induction ms generalizing al bl i with
  | nil => cases al <;> cases bl <;> simp [compositeLoop]
  | cons m ms ih =>
    cases al with
    | nil => simp [compositeLoop]
    | cons a al =>
      cases bl with
      | nil => simp [compositeLoop]
      | cons b bl =>
        cases i with
        | zero => by_cases ha : a = 0 <;> simp [compositeLoop, ha]
        | succ i =>
          by_cases ha : a = 0 <;>
            simp [compositeLoop, ha, ih, Nat.succ_lt_succ_iff]

theorem compositeLoop_snd_get (ms al bl : List Nat) (i : Nat) :
    (compositeLoop ms al bl).2[i]?
      = if i < ms.length ∧ i < al.length ∧ i < bl.length ∧ al[i]? = some 0
        then some 255 else al[i]? := by
  induction ms generalizing al bl i with
  | nil => cases al <;> cases bl <;> simp [compositeLoop]
  | cons m ms ih =>
    cases al with
    | nil => simp [compositeLoop]
    | cons a al =>
      cases bl with
      | nil => simp [compositeLoop]
      | cons b bl =>
        cases i with
        | zero => by_cases ha : a = 0 <;> simp [compositeLoop, ha]
        | succ i =>
          by_cases ha : a = 0 <;>
            simp [compositeLoop, ha, ih, Nat.succ_lt_succ_iff]

theorem compositeLoop_idem (ms al bl : List Nat) :
    compositeLoop (compositeLoop ms al bl).1 (compositeLoop ms al bl).2 bl
      = compositeLoop ms al bl := by
  induction ms generalizing al bl with
  | nil => cases al <;> cases bl <;> simp [compositeLoop]
  | cons m ms ih =>
    cases al with
    | nil => simp [compositeLoop]
    | cons a al =>
      cases bl with
      | nil => simp [compositeLoop]
      | cons b bl =>
        by_cases ha : a = 0 <;> simp [compositeLoop, ha, ih]

/-! ### Compositor claims (C6, C7, C10) -/

/-- Claim C6: the compositor assigns `M.pix[i] = B.pix[i]` and
`M.alpha[i] = 255` at exactly the indices `i` within the common length of
the three planes where `M.alpha[i] = 0`, leaves every other index
unchanged, preserves plane lengths, and is idempotent. -/
theorem composite_transformation (m b : GrayImage) (a : List Nat)
    (ha : m.alpha = some a) :
    Composite (some m) (some b)
        = some { m with pix := (compositeLoop m.pix a b.pix).1,
                        alpha := some (compositeLoop m.pix a b.pix).2 }
    ∧ (compositeLoop m.pix a b.pix).1.length = m.pix.length
    ∧ (compositeLoop m.pix a b.pix).2.length = a.length
    ∧ (∀ i, i < m.pix.length → i < a.length → i < b.pix.length →
        (a[i]? = some 0 →
          (compositeLoop m.pix a b.pix).1[i]? = b.pix[i]?
          ∧ (compositeLoop m.pix a b.pix).2[i]? = some 255)
        ∧ (a[i]? ≠ some 0 →
          (compositeLoop m.pix a b.pix).1[i]? = m.pix[i]?
          ∧ (compositeLoop m.pix a b.pix).2[i]? = a[i]?))
    ∧ (∀ i, ¬ (i < m.pix.length ∧ i < a.length ∧ i < b.pix.length) →
        (compositeLoop m.pix a b.pix).1[i]? = m.pix[i]?
        ∧ (compositeLoop m.pix a b.pix).2[i]? = a[i]?)
    ∧ Composite (Composite (some m) (some b)) (some b)
        = Composite (some m) (some b) := by
  refine ⟨by simp [Composite, ha], compositeLoop_fst_length .., compositeLoop_snd_length ..,
    ?_, ?_, ?_⟩
  · intro i h1 h2 h3
    constructor
    · intro h0
      rw [compositeLoop_fst_get, compositeLoop_snd_get]
      simp [h1, h2, h3, h0]
    · intro h0
      rw [compositeLoop_fst_get, compositeLoop_snd_get]
      simp [h0]
  · intro i hout
    rw [compositeLoop_fst_get, compositeLoop_snd_get]
    rw [if_neg (by tauto), if_neg (by tauto)]
    exact ⟨rfl, rfl⟩
  · simp only [Composite, ha]
    simp [compositeLoop_idem]

theorem composite_transformation_witness :
    (GrayImage.mk [10, 11] (some [0, 7]) 2 1).alpha = some [0, 7] ∧
    (Composite (some (GrayImage.mk [10, 11] (some [0, 7]) 2 1))
        (some (GrayImage.mk [20, 21] none 2 1))
        = some { GrayImage.mk [10, 11] (some [0, 7]) 2 1 with
                   pix := (compositeLoop [10, 11] [0, 7] [20, 21]).1,
                   alpha := some (compositeLoop [10, 11] [0, 7] [20, 21]).2 }
    ∧ (compositeLoop [10, 11] [0, 7] [20, 21]).1.length
        = (GrayImage.mk [10, 11] (some [0, 7]) 2 1).pix.length
    ∧ (compositeLoop [10, 11] [0, 7] [20, 21]).2.length = ([0, 7] : List Nat).length
    ∧ (∀ i, i < (GrayImage.mk [10, 11] (some [0, 7]) 2 1).pix.length →
          i < ([0, 7] : List Nat).length →
          i < (GrayImage.mk [20, 21] none 2 1).pix.length →
        (([0, 7] : List Nat)[i]? = some 0 →
          (compositeLoop [10, 11] [0, 7] [20, 21]).1[i]?
            = (GrayImage.mk [20, 21] none 2 1).pix[i]?
          ∧ (compositeLoop [10, 11] [0, 7] [20, 21]).2[i]? = some 255)
        ∧ (([0, 7] : List Nat)[i]? ≠ some 0 →
          (compositeLoop [10, 11] [0, 7] [20, 21]).1[i]?
            = (GrayImage.mk [10, 11] (some [0, 7]) 2 1).pix[i]?
          ∧ (compositeLoop [10, 11] [0, 7] [20, 21]).2[i]? = ([0, 7] : List Nat)[i]?))
    ∧ (∀ i, ¬ (i < (GrayImage.mk [10, 11] (some [0, 7]) 2 1).pix.length
          ∧ i < ([0, 7] : List Nat).length
          ∧ i < (GrayImage.mk [20, 21] none 2 1).pix.length) →
        (compositeLoop [10, 11] [0, 7] [20, 21]).1[i]?
          = (GrayImage.mk [10, 11] (some [0, 7]) 2 1).pix[i]?
        ∧ (compositeLoop [10, 11] [0, 7] [20, 21]).2[i]? = ([0, 7] : List Nat)[i]?)
    ∧ Composite (Composite (some (GrayImage.mk [10, 11] (some [0, 7]) 2 1))
          (some (GrayImage.mk [20, 21] none 2 1)))
          (some (GrayImage.mk [20, 21] none 2 1))
        = Composite (some (GrayImage.mk [10, 11] (some [0, 7]) 2 1))
            (some (GrayImage.mk [20, 21] none 2 1))) :=
  ⟨rfl, composite_transformation (GrayImage.mk [10, 11] (some [0, 7]) 2 1)
    (GrayImage.mk [20, 21] none 2 1) [0, 7] rfl⟩

/-- Claim C7 counterexample: an alpha byte that is neither 0 nor 255
survives the compositor unchanged, so not every alpha byte equals 255
afterwards.  Main raster [1] with alpha [7], background [2]: the
compositor leaves alpha [7]. -/
theorem composite_alpha_cex :
    Composite (some (GrayImage.mk [1] (some [7]) 1 1))
        (some (GrayImage.mk [2] none 1 1))
      = some (GrayImage.mk [1] (some [7]) 1 1)
    ∧ (7 : Nat) ≠ 255 := by
  constructor
  · simp [Composite, compositeLoop]
  · decide

/-- Claim C7 (amended): when the main raster has an alpha plane whose
bytes all lie in {0, 255} (as every RLE-produced alpha plane does) and the
pixel planes of main and background are at least as long as the alpha
plane, then after the compositor every alpha byte of the main raster
equals 255. -/
theorem composite_alpha_all255 (m b : GrayImage) (a : List Nat)
    (ha : m.alpha = some a)
    (hv : ∀ x ∈ a, x = 0 ∨ x = 255)
    (hm : a.length ≤ m.pix.length)
    (hb : a.length ≤ b.pix.length) :
    ∃ p q, Composite (some m) (some b) = some (GrayImage.mk p (some q) m.W m.H)
      ∧ ∀ x ∈ q, x = 255 := by
  refine ⟨(compositeLoop m.pix a b.pix).1, (compositeLoop m.pix a b.pix).2,
    by simp [Composite, ha], ?_⟩
  intro x hx
  obtain ⟨i, hi⟩ := List.mem_iff_getElem?.mp hx
  have hlen : i < a.length := by
    have hq : i < (compositeLoop m.pix a b.pix).2.length := by
      by_contra hcon
      rw [List.getElem?_eq_none (by omega)] at hi
      exact Option.noConfusion hi
    rwa [compositeLoop_snd_length] at hq
  have hy : a[i]? = some a[i] := List.getElem?_eq_getElem hlen
  have hy01 := hv a[i] (List.getElem_mem hlen)
  rw [compositeLoop_snd_get] at hi
  by_cases h0 : a[i]? = some 0
  · rw [if_pos ⟨by omega, hlen, by omega, h0⟩] at hi
    exact (Option.some.inj hi).symm
  · rw [if_neg (by tauto)] at hi
    rw [hy] at hi
    have hx' : a[i] = x := Option.some.inj hi
    rcases hy01 with h | h
    · rw [hy, h] at h0
      exact absurd rfl h0
    · omega

theorem composite_alpha_all255_witness :
    (GrayImage.mk [1, 2] (some [0, 255]) 2 1).alpha = some [0, 255]
    ∧ (∀ x ∈ ([0, 255] : List Nat), x = 0 ∨ x = 255)
    ∧ ([0, 255] : List Nat).length ≤ (GrayImage.mk [1, 2] (some [0, 255]) 2 1).pix.length
    ∧ ([0, 255] : List Nat).length ≤ (GrayImage.mk [5, 6] none 2 1).pix.length
    ∧ ∃ p q, Composite (some (GrayImage.mk [1, 2] (some [0, 255]) 2 1))
          (some (GrayImage.mk [5, 6] none 2 1))
        = some (GrayImage.mk p (some q) 2 1)
      ∧ ∀ x ∈ q, x = 255 :=
  ⟨rfl, by decide, by decide, by decide,
   composite_alpha_all255 (GrayImage.mk [1, 2] (some [0, 255]) 2 1)
     (GrayImage.mk [5, 6] none 2 1) [0, 255] rfl (by decide) (by decide) (by decide)⟩

/-- Claim C10: calling the compositor with a nil main raster, a nil
background raster, or a main raster without an alpha plane is a total
no-op: the embedded function is total (the Go early return prevents any
dereference) and both rasters are left unchanged (the returned main is the
input main, and `Composite` never writes the background). -/
theorem composite_nil_noop (main bg : Option GrayImage)
    (h : main = none ∨ bg = none ∨ ∃ m, main = some m ∧ m.alpha = none) :
    Composite main bg = main := by
  rcases h with h | h | ⟨m, hm, halpha⟩
  · subst h; cases bg <;> rfl
  · subst h; cases main <;> rfl
  · subst hm
    cases bg with
    | none => rfl
    | some b => simp [Composite, halpha]

theorem composite_nil_noop_witness :
    ((none : Option GrayImage) = none ∨ (some (GrayImage.mk [1] (some [0]) 1 1) : Option GrayImage) = none
      ∨ ∃ m, (none : Option GrayImage) = some m ∧ m.alpha = none)
    ∧ Composite none (some (GrayImage.mk [1] (some [0]) 1 1)) = none :=
  ⟨Or.inl rfl,
   composite_nil_noop none (some (GrayImage.mk [1] (some [0]) 1 1)) (Or.inl rfl)⟩

/-! ### Palette defaulting (Claim C8) -/

/-- Claim C8 counterexample: the code byte 0x9D lies outside the eight
palette codes {0x61..0x68}, yet a run of that color is emitted with
grayscale 0x9D, not the claimed default 0xC9: `grayLUT` carries extra
"X2 variant" entries 0x9D, 0x9E, 0xC9, 0xCA. -/
theorem palette_default_cex :
    ¬ (0x9d : Nat) ∈ [colBlack, colBG, colDark, colGray, colWhite, colMBlack, colMDark, colMGray]
    ∧ writeRun [] 4 1 0x9d 2 = [0x9d, 0x9d]
    ∧ [0x9d, 0x9d] ≠ List.replicate 2 0xc9 := by
  refine ⟨by decide, ?_, by decide⟩
  decide

/-- Claim C8 (amended): a color code outside the eight palette codes
{0x61..0x68} is emitted with grayscale 0xC9 (mid gray) unless it is one of
the X2 variant codes 0x9D or 0x9E, which are emitted with 0x9D (the
variant codes 0xC9 and 0xCA are also in the lookup table but map to 0xC9,
agreeing with the default). -/
theorem palette_default_amended (code : Nat)
    (h : ¬ code ∈ [0x61, 0x62, 0x63, 0x64, 0x65, 0x66, 0x67, 0x68])
    (h2 : code ≠ 0x9d ∧ code ≠ 0x9e)
    (out : List Nat) (expected w len : Nat) (hw : 0 < w) :
    runGray code = 0xc9
    ∧ writeRun out expected w code len
        = out ++ List.replicate (min len (expected - out.length)) 0xc9 := by
  have hg : runGray code = 0xc9 := by
    simp only [List.mem_cons, List.not_mem_nil, or_false, not_or] at h
    obtain ⟨n1, n2, n3, n4, n5, n6, n7, n8⟩ := h
    obtain ⟨n9, n10⟩ := h2
    by_cases hc9 : code = 0xc9
    · simp [runGray, grayLUT, colBlack, colMBlack, colDark, colMDark, colGray, colMGray,
        colWhite, colBG, n1, n2, n3, n4, n5, n6, n7, n8, n9, n10, hc9]
    · by_cases hca : code = 0xca
      · simp [runGray, grayLUT, colBlack, colMBlack, colDark, colMDark, colGray, colMGray,
          colWhite, colBG, n1, n2, n3, n4, n5, n6, n7, n8, n9, n10, hca]
      · simp [runGray, grayLUT, colBlack, colMBlack, colDark, colMDark, colGray, colMGray,
          colWhite, colBG, n1, n2, n3, n4, n5, n6, n7, n8, n9, n10, hc9, hca]
  refine ⟨hg, ?_⟩
  rw [writeRun_eq _ _ _ _ _ hw, hg]

theorem palette_default_amended_witness :
    ¬ (0x50 : Nat) ∈ [0x61, 0x62, 0x63, 0x64, 0x65, 0x66, 0x67, 0x68]
    ∧ ((0x50 : Nat) ≠ 0x9d ∧ (0x50 : Nat) ≠ 0x9e)
    ∧ 0 < 4
    ∧ (runGray 0x50 = 0xc9
      ∧ writeRun [] 10 4 0x50 3
          = [] ++ List.replicate (min 3 (10 - List.length ([] : List Nat))) 0xc9) :=
  ⟨by decide, by decide, by decide,
   palette_default_amended 0x50 (by decide) (by decide) [] 10 4 3 (by decide)⟩

/-! ### Layer loader dispatch (parse.go lines 244-395) and background decoder (lines 181-242) -/

/-- The PNG signature 89 50 4E 47 0D 0A 1A 0A checked at parse.go line 287. -/
def pngSig : List Nat := [0x89, 0x50, 0x4E, 0x47, 0x0D, 0x0A, 0x1A, 0x0A]

/-- Go map indexing with its zero-value default: `pm.Params[key]` yields
the empty string when the key is absent. -/
def paramsGet (pm : String → Option String) (key : String) : String :=
  (pm key).getD ""

/-- The neutral background raster synthesized for short background blocks
(parse.go lines 270-279): a pageWidth*pageHeight buffer of grayscale 0xFE
with alpha 255. -/
def neutralBG : GrayImage :=
  ⟨List.replicate (pageWidth * pageHeight) 0xfe,
   some (List.replicate (pageWidth * pageHeight) 255), pageWidth, pageHeight⟩

/-- The alpha plane derived from the transparent sentinel (parse.go lines
383-390 and 233-240): gray 0xFF gets alpha 0, everything else 255. -/
def rleAlpha (pix : List Nat) : List Nat :=
  pix.map fun v => if v = 0xff then 0 else 255

/-- Typed rendering of the error returns of `decodeLayerFromPage` and
`DecodeBackground`; `sizeMismatch` carries the `(produced, expected)`
counts of the "ratta_ref decoded %d != %d" message. -/
inductive LayerErr where
  | keyMissing (key : String)
  | bitmapMissing (key : String)
  | sizeMismatch (produced expected : Nat)
  | unsupportedProtocol (proto : String)
deriving DecidableEq

/-- Result of the layer loader dispatch: either the payload is handed to
the external PNG decoder (parse.go lines 288-343, `png.Decode` is a
library call) or a fully decoded raster is produced in-process. -/
inductive LayerOutcome where
  | pngBranch (data : List Nat) (horiz : Bool)
  | image (img : GrayImage)
deriving DecidableEq

/-- The RATTA_RLE arm of `decodeLayerFromPage` (parse.go lines 346-391):
decode with the all-blank hint hard-coded to `false` (line 352; the
comment at line 345 reads "Skip allBlank logic"), retry once at the
default dimensions when the first decode fails and the dimensions are
non-default (the error of the decoder always contains "ratta_ref
decoded", so the `strings.Contains` test at line 355 is always true), and
re-check the size after a successful decode (lines 364-376; dead in
practice because the decoder only succeeds at the exact size, kept for
structural fidelity). -/
def rleBranchDecode (data : List Nat) (w h : Nat) (horiz : Bool) :
    Except (Nat × Nat) GrayImage :=
  let finish : List Nat × Nat × Nat → Except (Nat × Nat) GrayImage := fun r =>
    if r.1.length = r.2.1 * r.2.2 then
      .ok ⟨r.1, some (rleAlpha r.1), r.2.1, r.2.2⟩
    else if w ≠ pageWidth ∨ h ≠ pageHeight then
      match decodeRattaRLERef data pageWidth pageHeight false horiz with
      | .ok s =>
        if s.1.length = s.2.1 * s.2.2 then
          .ok ⟨s.1, some (rleAlpha s.1), s.2.1, s.2.2⟩
        else .error (r.1.length, r.2.1 * r.2.2)
      | .error _ => .error (r.1.length, r.2.1 * r.2.2)
    else .error (r.1.length, r.2.1 * r.2.2)
  match decodeRattaRLERef data w h false horiz with
  | .ok r => finish r
  | .error e =>
    if w ≠ pageWidth ∨ h ≠ pageHeight then
      match decodeRattaRLERef data pageWidth pageHeight false horiz with
      | .ok r => finish r
      | .error _ => .error e
    else .error e

/-- Function `decodeLayerFromPage` (parse.go lines 245-395) with the file reads
abstracted: `pm` is the page parameter map, `meta` the layer metadata map
read from the layer offset, and `data` the bitmap payload of declared
length `blockLen = data.length`.  The dispatch order follows the source:
key lookup, LAYERBITMAP lookup, the `blockLen < 16 && key == BGLAYER`
neutral-background early return, the PNG magic check, then the protocol
switch. -/
def decodeLayerFromPage (pm meta : String → Option String) (data : List Nat)
    (w h : Nat) (key : String) : Except LayerErr LayerOutcome :=
  match pm key with
  | none => .error (.keyMissing key)
  | some _ =>
    match meta "LAYERBITMAP" with
    | none => .error (.bitmapMissing key)
    | some _ =>
      if data.length < 16 ∧ key = "BGLAYER" then .ok (.image neutralBG)
      else
        let horiz := paramsGet pm "ORIENTATION" == "1090"
        if 8 ≤ data.length ∧ data.take 8 = pngSig then .ok (.pngBranch data horiz)
        else if (meta "LAYERPROTOCOL").getD "" = "RATTA_RLE" then
          match rleBranchDecode data w h horiz with
          | .ok img => .ok (.image img)
          | .error (p, e) => .error (.sizeMismatch p e)
        else .error (.unsupportedProtocol ((meta "LAYERPROTOCOL").getD ""))

/-- The core of `DecodeBackground` (parse.go lines 181-242) with the file
reads abstracted.  Unlike the layer loader, this function computes the
all-blank hint: PAGESTYLE present and equal to "style_white" and the block
length equal to 0x140E (lines 212-215).  The post-decode size check and
non-default-dimension fallback of lines 221-231 are dead in practice but
kept for structural fidelity (the fallback passes `allBlank` through). -/
def decodeBackgroundCore (pm meta : String → Option String) (data : List Nat)
    (w h : Nat) : Except LayerErr GrayImage :=
  match pm "BGLAYER" with
  | none => .error (.keyMissing "BGLAYER")
  | some _ =>
    if (meta "LAYERPROTOCOL").getD "" ≠ "RATTA_RLE" then
      .error (.unsupportedProtocol ((meta "LAYERPROTOCOL").getD ""))
    else
      let allBlank := (pm "PAGESTYLE" == some "style_white")
        && (data.length == specialWhiteStyleBlockSize)
      let horiz := paramsGet pm "ORIENTATION" == "1090"
      match decodeRattaRLERef data w h allBlank horiz with
      | .error (p, e) => .error (.sizeMismatch p e)
      | .ok (pix, w2, h2) =>
        if pix.length = w2 * h2 then .ok ⟨pix, some (rleAlpha pix), w2, h2⟩
        else if w ≠ pageWidth ∨ h ≠ pageHeight then
          match decodeRattaRLERef data pageWidth pageHeight allBlank horiz with
          | .ok s =>
            if s.1.length = s.2.1 * s.2.2 then
              .ok ⟨s.1, some (rleAlpha s.1), s.2.1, s.2.2⟩
            else .error (.sizeMismatch pix.length (w2 * h2))
          | .error _ => .error (.sizeMismatch pix.length (w2 * h2))
        else .error (.sizeMismatch pix.length (w2 * h2))

/-! ### PNG-branch rotation step (parse.go lines 314-341) -/

/-- The rotation mode selected at parse.go lines 315-318: the value of the
`SUPERNOTE_PNG_ROTATE` environment variable, with "auto" promoted to "cw"
when the orientation flag is set. -/
def rotMode (rotEnv : String) (horiz : Bool) : String :=
  if rotEnv = "auto" ∧ horiz then "cw" else rotEnv

/-- Destination index of the rotation scatter loop (parse.go lines
323-337): for "cw", source (x, y) goes to (nx, ny) = (h2-1-y, x); for
"ccw" to (y, w2-1-x); the destination row stride is `outW = h2`. -/
def rotIndex (rot : String) (w2 h2 x y : Nat) : Nat :=
  if rot = "cw" then x * h2 + (h2 - 1 - y) else (w2 - 1 - x) * h2 + y

/-- The 90-degree rotation of one plane (parse.go lines 320-338): a fresh
zero buffer of `outW * outH = h2 * w2` entries, filled by scattering each
source pixel to its rotated index.  The Go read `pix[iOld]` is always in
range in context; `getD 0` keeps the model total. -/
def rotatePlane (rot : String) (p : List Nat) (w2 h2 : Nat) : List Nat :=
  (List.range h2).foldl
    (fun acc y =>
      (List.range w2).foldl
        (fun acc2 x => acc2.set (rotIndex rot w2 h2 x y) (p.getD (y * w2 + x) 0))
        acc)
    (List.replicate (h2 * w2) 0)

/-- The orientation handling of the PNG branch after luma conversion
(parse.go lines 314-341): rotate both planes and swap the dimensions
exactly when the selected rotation mode is "cw" or "ccw". -/
def pngOrientStep (rotEnv : String) (horiz : Bool) (pix alp : List Nat)
    (w2 h2 : Nat) : List Nat × List Nat × Nat × Nat :=
  if rotMode rotEnv horiz = "cw" ∨ rotMode rotEnv horiz = "ccw" then
    (rotatePlane (rotMode rotEnv horiz) pix w2 h2,
     rotatePlane (rotMode rotEnv horiz) alp w2 h2, h2, w2)
  else (pix, alp, w2, h2)

/-! ### PNG rotation claims (C5) -/

/-- Claim C5 counterexample: with the `SUPERNOTE_PNG_ROTATE` environment
variable unset (the empty string, the default for this program, which
never sets it) and the page orientation equal to "1090" (`horiz = true`),
the PNG branch performs no rotation: a 2-by-1 raster keeps its planes and
its dimensions (2, 1) instead of the rotated (1, 2) the claim requires. -/
theorem png_rotation_cex :
    pngOrientStep "" true [1, 2] [3, 4] 2 1 = ([1, 2], [3, 4], 2, 1)
    ∧ ((2, 1) : Nat × Nat) ≠ (1, 2) := by
  constructor
  · rfl
  · decide

/-- Claim C5 (amended): the 90-degree rotation of both planes in the PNG
branch is performed if and only if the `SUPERNOTE_PNG_ROTATE` environment
variable requests it: value "cw" or "ccw" forces a rotation, value "auto"
rotates (clockwise) exactly when ORIENTATION equals "1090", and any other
value (including the unset default) never rotates, even when ORIENTATION
equals "1090". -/
theorem png_rotation_amended (rotEnv : String) (horiz : Bool)
    (pix alp : List Nat) (w2 h2 : Nat) :
    pngOrientStep rotEnv horiz pix alp w2 h2
      = if rotEnv = "cw" ∨ rotEnv = "ccw" ∨ (rotEnv = "auto" ∧ horiz = true) then
          (rotatePlane (rotMode rotEnv horiz) pix w2 h2,
           rotatePlane (rotMode rotEnv horiz) alp w2 h2, h2, w2)
        else (pix, alp, w2, h2) := by
  unfold pngOrientStep rotMode
  by_cases hauto : rotEnv = "auto" ∧ horiz = true
  · rw [if_pos hauto, if_pos (Or.inl rfl), if_pos (Or.inr (Or.inr hauto))]
  · rw [if_neg hauto]
    by_cases hcw : rotEnv = "cw"
    · rw [if_pos (Or.inl hcw), if_pos (Or.inl hcw)]
    · by_cases hccw : rotEnv = "ccw"
      · rw [if_pos (Or.inr hccw), if_pos (Or.inr (Or.inl hccw))]
      · rw [if_neg (by tauto), if_neg (by tauto)]

/-! ### Concrete pages and layers used by counterexamples and witnesses -/

def bgParams : String → Option String := fun k =>
  if k = "BGLAYER" then some "100" else none

def mainParams : String → Option String := fun k =>
  if k = "MAINLAYER" then some "1" else none

def rleMeta : String → Option String := fun k =>
  if k = "LAYERBITMAP" then some "200"
  else if k = "LAYERPROTOCOL" then some "RATTA_RLE" else none

def stylePageParams : String → Option String := fun k =>
  if k = "BGLAYER" then some "100"
  else if k = "PAGESTYLE" then some "style_white" else none

/-- A 0x140E-byte RATTA_RLE payload: a dark sentinel pair, a near-white
sentinel pair, then filler pairs that are never reached at 64x32. -/
def dataStyleWhite : List Nat :=
  0x63 :: 0xFF :: 0x65 :: 0xFF :: List.replicate 5130 0x65

/-! ### Helper: a successful RLE decode has the exact pixel count -/

theorem rle_if_ok_length (ab fx : Bool) (data pix : List Nat) (W H w2 h2 : Nat)
    (hok : (if (rleDecodeCore (W * H) W ab fx data).length = W * H
            then (Except.ok (rleDecodeCore (W * H) W ab fx data, W, H) :
              Except (Nat × Nat) (List Nat × Nat × Nat))
            else .error ((rleDecodeCore (W * H) W ab fx data).length, W * H))
          = .ok (pix, w2, h2)) :
    pix.length = w2 * h2 := by
  split_ifs at hok with hlen
  · simp only [Except.ok.injEq, Prod.mk.injEq] at hok
    obtain ⟨h1, h2', h3⟩ := hok
    subst h1; subst h2'; subst h3
    exact hlen

theorem decodeRattaRLERefEnv_ok_length (fx : Bool) (data : List Nat) (w h : Nat)
    (ab hz : Bool) (pix : List Nat) (w2 h2 : Nat)
    (hok : decodeRattaRLERefEnv fx data w h ab hz = .ok (pix, w2, h2)) :
    pix.length = w2 * h2 :=
  rle_if_ok_length ab fx data pix (if hz then h else w) (if hz then w else h) w2 h2 hok

theorem rleBranchDecode_ok (data : List Nat) (w h : Nat) (horiz : Bool)
    (pix : List Nat) (w2 h2 : Nat)
    (hok : decodeRattaRLERef data w h false horiz = .ok (pix, w2, h2)) :
    rleBranchDecode data w h horiz = .ok ⟨pix, some (rleAlpha pix), w2, h2⟩ := by
  have hlen : pix.length = w2 * h2 :=
    decodeRattaRLERefEnv_ok_length false data w h false horiz pix w2 h2 hok
  unfold rleBranchDecode
  rw [hok]
  simp [hlen]

theorem decodeBackgroundCore_ok (pm meta : String → Option String)
    (data : List Nat) (w h : Nat) (v : String) (pix : List Nat) (w2 h2 : Nat)
    (hbg : pm "BGLAYER" = some v)
    (hproto : (meta "LAYERPROTOCOL").getD "" = "RATTA_RLE")
    (hok : decodeRattaRLERef data w h
        ((pm "PAGESTYLE" == some "style_white")
          && (data.length == specialWhiteStyleBlockSize))
        (paramsGet pm "ORIENTATION" == "1090") = .ok (pix, w2, h2)) :
    decodeBackgroundCore pm meta data w h = .ok ⟨pix, some (rleAlpha pix), w2, h2⟩ := by
  have hlen : pix.length = w2 * h2 :=
    decodeRattaRLERefEnv_ok_length false data w h _ _ pix w2 h2 hok
  simp only [decodeBackgroundCore, hbg]
  rw [if_neg (by simp [hproto])]
  rw [hok]
  simp [hlen]

/-! ### Layer decoder selection order (Claim C9) -/

/-- Claim C9 counterexample: a background bitmap block of 8 bytes equal to
the PNG magic.  The loader checks `blockLen < 16 && key == BGLAYER`
*before* the PNG magic check (parse.go line 270 versus line 288), so it
synthesizes the neutral background instead of taking the PNG branch, while
the claim demands the PNG branch regardless. -/
theorem layer_select_cex :
    (8 : Nat) ≤ pngSig.length ∧ pngSig.take 8 = pngSig ∧ pngSig.length < 16
    ∧ decodeLayerFromPage bgParams rleMeta pngSig pageWidth pageHeight "BGLAYER"
        = .ok (.image neutralBG)
    ∧ (Except.ok (.image neutralBG) : Except LayerErr LayerOutcome)
        ≠ .ok (.pngBranch pngSig (paramsGet bgParams "ORIENTATION" == "1090")) := by
  refine ⟨by decide, by decide, by decide, rfl, by simp⟩

/-- Claim C9 (amended): the neutral background synthesis applies to every
background block with L < 16 regardless of its content, PNG magic
included; the PNG branch is taken for payloads of at least 8 bytes
starting with the PNG magic only when the neutral-background case does not
fire first (that is, for main layers, or for background blocks with
L >= 16). -/
theorem layer_select_amended (pm meta : String → Option String)
    (data : List Nat) (w h : Nat) (key v b : String)
    (hpm : pm key = some v) (hbm : meta "LAYERBITMAP" = some b) :
    (data.length < 16 ∧ key = "BGLAYER" →
      decodeLayerFromPage pm meta data w h key = .ok (.image neutralBG))
    ∧ (¬ (data.length < 16 ∧ key = "BGLAYER") →
       8 ≤ data.length → data.take 8 = pngSig →
      decodeLayerFromPage pm meta data w h key
        = .ok (.pngBranch data (paramsGet pm "ORIENTATION" == "1090"))) := by
  constructor
  · intro hcond
    simp only [decodeLayerFromPage, hpm, hbm]
    rw [if_pos hcond]
  · intro hcond h8 hpng
    simp only [decodeLayerFromPage, hpm, hbm]
    rw [if_neg hcond, if_pos ⟨h8, hpng⟩]

theorem layer_select_amended_witness :
    decodeLayerFromPage bgParams rleMeta pngSig 9 9 "BGLAYER" = .ok (.image neutralBG)
    ∧ decodeLayerFromPage mainParams rleMeta pngSig 9 9 "MAINLAYER"
        = .ok (.pngBranch pngSig (paramsGet mainParams "ORIENTATION" == "1090")) :=
  ⟨(layer_select_amended bgParams rleMeta pngSig 9 9 "BGLAYER" "100" "200" rfl rfl).1
     (by decide),
   (layer_select_amended mainParams rleMeta pngSig 9 9 "MAINLAYER" "1" "200" rfl rfl).2
     (by decide) (by decide) (by decide)⟩

/-! ### All-blank hint (Claim C3) -/

/-- Sentinel behavior of one decoder step with no holder pending: run of
0x400 pixels with the all-blank hint, 0x4000 without, both clamped. -/
theorem rleStep_sentinel (expected w : Nat) (ab : Bool) (out : List Nat)
    (color : Nat) (hw : 0 < w) :
    rleStep expected w ab false ⟨out, none⟩ color 0xFF
      = ⟨out ++ List.replicate
            (min (if ab then 0x400 else 0x4000) (expected - out.length))
            (runGray color), none⟩ := by
  cases ab <;>
    simp [rleStep, lenMark, longLen, writeRun_eq _ _ _ _ _ hw, Nat.min_assoc]

theorem dataStyleWhite_length : dataStyleWhite.length = 0x140E := by
  simp [dataStyleWhite, -List.reduceReplicate]

theorem rleCore_styleWhite_noHint :
    rleDecodeCore 2048 64 false false dataStyleWhite = List.replicate 2048 0x9d := by
  have hg : runGray 0x63 = 0x9d := by decide
  unfold rleDecodeCore dataStyleWhite
  rw [rleLoop, if_neg (by simp)]
  rw [rleStep_sentinel 2048 64 false [] 0x63 (by omega)]
  rw [rleLoop_stop _ _ _ _ _ _ (by simp [-List.reduceReplicate])]
  simp [rleTail, hg, -List.reduceReplicate]

theorem rleCore_styleWhite_hint :
    rleDecodeCore 2048 64 true false dataStyleWhite
      = List.replicate 1024 0x9d ++ List.replicate 1024 0xfe := by
  have hg1 : runGray 0x63 = 0x9d := by decide
  have hg2 : runGray 0x65 = 0xfe := by decide
  unfold rleDecodeCore dataStyleWhite
  rw [rleLoop, if_neg (by simp)]
  rw [rleStep_sentinel 2048 64 true [] 0x63 (by omega)]
  rw [rleLoop, if_neg (by simp [-List.reduceReplicate])]
  rw [rleStep_sentinel 2048 64 true _ 0x65 (by omega)]
  rw [rleLoop_stop _ _ _ _ _ _ (by simp [-List.reduceReplicate])]
  simp [rleTail, hg1, hg2, -List.reduceReplicate]

/-- Claim C3 counterexample: a background page with PAGESTYLE
"style_white" and a bitmap block of exactly 0x140E bytes.  The Layer
Loader (`decodeLayerFromPage`) passes `allBlank = false` unconditionally
(parse.go line 352, "Skip allBlank logic"), so the first sentinel pair
expands toward 0x4000 and fills the whole 64x32 raster with dark gray; a
decode with the hint set (what the claim requires) would emit 0x400-pixel
runs and produce a half dark, half near-white raster instead. -/
theorem allblank_hint_cex :
    stylePageParams "PAGESTYLE" = some "style_white"
    ∧ dataStyleWhite.length = specialWhiteStyleBlockSize
    ∧ decodeLayerFromPage stylePageParams rleMeta dataStyleWhite 64 32 "BGLAYER"
        = .ok (.image ⟨List.replicate 2048 0x9d, some (List.replicate 2048 255), 64, 32⟩)
    ∧ decodeRattaRLERef dataStyleWhite 64 32 true false
        = .ok (List.replicate 1024 0x9d ++ List.replicate 1024 0xfe, 64, 32)
    ∧ List.replicate 2048 (0x9d : Nat)
        ≠ List.replicate 1024 0x9d ++ List.replicate 1024 0xfe := by
  have hnohint : decodeRattaRLERef dataStyleWhite 64 32 false false
      = .ok (List.replicate 2048 0x9d, 64, 32) := by
    unfold decodeRattaRLERef decodeRattaRLERefEnv
    simp [rleCore_styleWhite_noHint, -List.reduceReplicate]
  refine ⟨rfl, dataStyleWhite_length, ?_, ?_, ?_⟩
  · simp only [decodeLayerFromPage]
    rw [show stylePageParams "BGLAYER" = some "100" from rfl]
    rw [show rleMeta "LAYERBITMAP" = some "200" from rfl]
    rw [if_neg (by rw [dataStyleWhite_length]; omega)]
    rw [if_neg (by simp [dataStyleWhite, pngSig, -List.reduceReplicate])]
    rw [if_pos (show (rleMeta "LAYERPROTOCOL").getD "" = "RATTA_RLE" from rfl)]
    rw [show (paramsGet stylePageParams "ORIENTATION" == "1090") = false from rfl]
    rw [rleBranchDecode_ok dataStyleWhite 64 32 false _ 64 32 hnohint]
    simp [rleAlpha, -List.reduceReplicate]
  · unfold decodeRattaRLERef decodeRattaRLERefEnv
    simp [rleCore_styleWhite_hint, -List.reduceReplicate]
  · intro heq
    have h1 := congrArg (fun l => l[1024]?) heq
    simp only at h1
    rw [List.getElem?_append_right (by simp [-List.reduceReplicate])] at h1
    simp [List.getElem?_replicate, -List.reduceReplicate] at h1

/-- Claim C3 (amended): the Layer Loader always invokes the RLE codec with
the all-blank hint cleared, even on pages with PAGESTYLE "style_white" and
a 0x140E-byte bitmap block (first conjunct: for every page reaching the
RATTA_RLE branch, the result is built from the hint-cleared decode); only
the standalone background decoder `DecodeBackground` computes the hint,
setting it exactly when PAGESTYLE is "style_white" and the block length is
0x140E (second conjunct); and when the hint is set a sentinel pair
(c, 0xFF) emits a run of 0x400 pixels (clamped) instead of the 0x4000
(clamped) emitted without it (third conjunct). -/
theorem allblank_hint_amended :
    (∀ pm meta : String → Option String, ∀ data : List Nat, ∀ w h : Nat,
     ∀ key v b : String, ∀ pix : List Nat, ∀ w2 h2 : Nat,
       pm key = some v → meta "LAYERBITMAP" = some b →
       ¬ (data.length < 16 ∧ key = "BGLAYER") →
       ¬ (8 ≤ data.length ∧ data.take 8 = pngSig) →
       (meta "LAYERPROTOCOL").getD "" = "RATTA_RLE" →
       decodeRattaRLERef data w h false (paramsGet pm "ORIENTATION" == "1090")
         = .ok (pix, w2, h2) →
       decodeLayerFromPage pm meta data w h key
         = .ok (.image ⟨pix, some (rleAlpha pix), w2, h2⟩))
    ∧ (∀ pm meta : String → Option String, ∀ data : List Nat, ∀ w h : Nat,
       ∀ v : String, ∀ pix : List Nat, ∀ w2 h2 : Nat,
       pm "BGLAYER" = some v →
       (meta "LAYERPROTOCOL").getD "" = "RATTA_RLE" →
       decodeRattaRLERef data w h
           ((pm "PAGESTYLE" == some "style_white")
             && (data.length == specialWhiteStyleBlockSize))
           (paramsGet pm "ORIENTATION" == "1090") = .ok (pix, w2, h2) →
       decodeBackgroundCore pm meta data w h = .ok ⟨pix, some (rleAlpha pix), w2, h2⟩)
    ∧ (∀ expected w : Nat, ∀ out : List Nat, ∀ color : Nat, 0 < w →
        (rleStep expected w true false ⟨out, none⟩ color 0xFF).out
          = out ++ List.replicate (min 0x400 (expected - out.length)) (runGray color)
        ∧ (rleStep expected w false false ⟨out, none⟩ color 0xFF).out
          = out ++ List.replicate (min 0x4000 (expected - out.length)) (runGray color)) := by
  refine ⟨?_, ?_, ?_⟩
  · intro pm meta data w h key v b pix w2 h2 hpm hbm hshort hpng hproto hok
    simp only [decodeLayerFromPage, hpm, hbm]
    rw [if_neg hshort, if_neg hpng, if_pos hproto,
      rleBranchDecode_ok data w h _ pix w2 h2 hok]
  · intro pm meta data w h v pix w2 h2 hbg hproto hok
    exact decodeBackgroundCore_ok pm meta data w h v pix w2 h2 hbg hproto hok
  · intro expected w out color hw
    constructor
    · simp [rleStep, lenMark, writeRun_eq _ _ _ _ _ hw, Nat.min_assoc]
    · simp [rleStep, lenMark, longLen, writeRun_eq _ _ _ _ _ hw, Nat.min_assoc]

theorem allblank_hint_amended_witness :
    decodeLayerFromPage mainParams rleMeta [0x61, 0x00] 1 1 "MAINLAYER"
        = .ok (.image ⟨[0x00], some (rleAlpha [0x00]), 1, 1⟩)
    ∧ decodeBackgroundCore stylePageParams rleMeta dataStyleWhite 64 32
        = .ok ⟨List.replicate 1024 0x9d ++ List.replicate 1024 0xfe,
               some (rleAlpha (List.replicate 1024 0x9d ++ List.replicate 1024 0xfe)), 64, 32⟩
    ∧ ((rleStep 2 1 true false ⟨[], none⟩ 0x65 0xFF).out
          = [] ++ List.replicate (min 0x400 (2 - List.length ([] : List Nat))) (runGray 0x65)
       ∧ (rleStep 2 1 false false ⟨[], none⟩ 0x65 0xFF).out
          = [] ++ List.replicate (min 0x4000 (2 - List.length ([] : List Nat))) (runGray 0x65)) := by
  refine ⟨?_, ?_, ?_⟩
  · exact allblank_hint_amended.1 mainParams rleMeta [0x61, 0x00] 1 1 "MAINLAYER" "1" "200"
      [0x00] 1 1 rfl rfl (by decide) (by decide) rfl (by decide)
  · refine allblank_hint_amended.2.1 stylePageParams rleMeta dataStyleWhite 64 32 "100"
      (List.replicate 1024 0x9d ++ List.replicate 1024 0xfe) 64 32 rfl rfl ?_
    have hb : ((stylePageParams "PAGESTYLE" == some "style_white")
        && (dataStyleWhite.length == specialWhiteStyleBlockSize)) = true := by
      rw [dataStyleWhite_length]; rfl
    rw [hb, show (paramsGet stylePageParams "ORIENTATION" == "1090") = false from rfl]
    unfold decodeRattaRLERef decodeRattaRLERefEnv
    simp [rleCore_styleWhite_hint, -List.reduceReplicate]
  · exact allblank_hint_amended.2.2 2 1 [] 0x65 (by decide)
